import Mathlib

/-!
Verification development for the ComplianceBinder backend
(`backend/app/{models,security,config,main}.py`).

The Python service is shallowly embedded: SQLModel rows become structures,
the SQLite store and the upload directory become explicit state, FastAPI
endpoint bodies become pure functions `Env → args → St → Except HTTPError α × St`,
and `HTTPException(status_code, detail)` becomes the `HTTPError` structure.
Timestamps (`datetime.utcnow`, `date.today`) are abstract ticks (`Nat`);
dates are proleptic ordinals (`Nat`), with `dateMax` standing for
Python's `date.max`.
-/

deriving instance DecidableEq for Except

namespace CB

/-- `fastapi.HTTPException`: an HTTP status code plus a detail string. -/
structure HTTPError where
  status_code : Nat
  detail : String
deriving Repr, DecidableEq

/-! ## Data model (`backend/app/models.py`) -/

/-- `models.User`: id, unique email, password hash, creation timestamp. -/
structure User where
  id : Nat
  email : String
  password_hash : String
  created_at : Nat
deriving Repr, DecidableEq

/-- `models.Binder`: id, name, industry tag, creation timestamp, owner id. -/
structure Binder where
  id : Nat
  name : String
  industry : String
  created_at : Nat
  owner_id : Nat
deriving Repr, DecidableEq

/-- `models.Task`: id, title, description, status (`"open"`/`"done"`),
optional due date, creation timestamp, parent binder id.  These are exactly
the columns declared in `models.py`; note there is no `updated_at` column. -/
structure Task where
  id : Nat
  title : String
  description : String
  status : String
  due_date : Option Nat
  created_at : Nat
  binder_id : Nat
deriving Repr, DecidableEq

/-- The column names of the `Task` table as declared in `models.py`. -/
def task_table_columns : List String :=
  ["id", "title", "description", "status", "due_date", "created_at", "binder_id"]

/-- `models.Document`: id, server-chosen stored filename, user-supplied
original name, content type, note, upload timestamp, parent binder id. -/
structure Document where
  id : Nat
  filename : String
  original_name : String
  content_type : String
  note : String
  uploaded_at : Nat
  binder_id : Nat
deriving Repr, DecidableEq

/-! ## Token layer (`backend/app/security.py`, jose `jwt.encode`/`jwt.decode`)

The JWT payload is `{"sub": subject, "exp": expiry}`.  The HMAC signature is
idealised as the pair of the signing secret and the signed claims (an
unforgeable MAC): verification succeeds exactly when the token was produced
with the verifier's secret over the same claims. -/

/-- The claims dictionary `{"sub": ..., "exp": ...}`; `sub` is `none` when
the key is absent (`payload.get("sub")` returning `None`). -/
structure Claims where
  sub : Option String
  exp : Nat
deriving Repr, DecidableEq

/-- A wire token: either not parseable as a JWT, or a signed claims set. -/
inductive TokenV where
  | malformed (raw : String)
  | signed (claims : Claims) (sig : String × Claims)
deriving Repr, DecidableEq

/-- The error variants jose raises from `jwt.decode`. -/
inductive JoseError where
  | malformedToken
  | invalidSignature
  | expiredToken
deriving Repr, DecidableEq

/-- `jose.jwt.encode(claims, secret, "HS256")`. -/
def jwt_encode (claims : Claims) (secret : String) : TokenV :=
  .signed claims (secret, claims)

/-- `jose.jwt.decode(token, secret, ["HS256"])` evaluated at time `now`:
the structure is parsed, the signature is verified, then the `exp` claim is
checked.  jose treats the token as expired only when `exp < now`
(`jwt._validate_exp`: `if exp < (now - leeway)` with zero leeway), so a
token verified exactly at its expiry instant is still accepted. -/
def jwt_decode (t : TokenV) (secret : String) (now : Nat) : Except JoseError Claims :=
  match t with
  | .malformed _ => .error .malformedToken
  | .signed c sig =>
    if sig = (secret, c) then
      if c.exp < now then .error .expiredToken else .ok c
    else .error .invalidSignature

/-- `security.create_access_token`: claims `{"sub": subject, "exp": now + minutes}`
signed with the configured secret (minutes scaled to the abstract clock). -/
def create_access_token (secret subject : String) (now expires_minutes : Nat) : TokenV :=
  jwt_encode ⟨some subject, now + 60 * expires_minutes⟩ secret

/-! ## Configuration (`backend/app/config.py`, post-patch) -/

/-- Python truthiness of an optional string: `not x` holds for `None` and `""`. -/
def pyFalsyStr : Option String → Bool
  | none => true
  | some s => s = ""

/-- `str.lower()`, character by character (the environment names compared
against are ASCII). -/
def pyLower (s : String) : String :=
  String.mk (s.data.map Char.toLower)

/-- The upload-size limit declared by `Settings.max_upload_size_bytes`. -/
def max_upload_size_bytes : Nat := 10 * 1024 * 1024

/-- The content-type allowlist declared by `Settings.allowed_content_types`. -/
def allowed_content_types : List String :=
  ["application/pdf", "image/png", "image/jpeg"]

/-- The module-level fail-fast check at the bottom of `config.py`: returns
`true` when importing the module raises `RuntimeError`.  The guard fires iff
`os.environ.get("ENV", "").lower()` is one of `prod`, `production`, `staging`
and `settings.secret_key` is falsy (unset or empty). -/
def startup_secret_check (env_name : String) (secret_key : Option String) : Bool :=
  decide (pyLower env_name ∈ ["prod", "production", "staging"]) && pyFalsyStr secret_key

/-! ## File-store helpers (`os.path.basename`, `secrets.token_hex`) -/

/-- `posixpath.basename`: the suffix after the last `'/'`, as characters. -/
def basenameChars (l : List Char) : List Char :=
  (l.reverse.takeWhile (fun c => c ≠ '/')).reverse

/-- `os.path.basename` on POSIX: everything after the last slash. -/
def os_path_basename (s : String) : String :=
  String.mk (basenameChars s.data)

/-- One lowercase hexadecimal digit. -/
def hexDigit : Nat → Char
  | 0 => '0' | 1 => '1' | 2 => '2' | 3 => '3'
  | 4 => '4' | 5 => '5' | 6 => '6' | 7 => '7'
  | 8 => '8' | 9 => '9' | 10 => 'a' | 11 => 'b'
  | 12 => 'c' | 13 => 'd' | 14 => 'e' | _ => 'f'

/-- Little-endian hex digits of the entropy `seed`, `k` digits long. -/
def hexChars : Nat → Nat → List Char
  | 0, _ => []
  | k + 1, n => hexDigit (n % 16) :: hexChars k (n / 16)

/-- `secrets.token_hex(16)`: 32 hex characters drawn from the entropy source,
which the embedding surfaces as the `seed` input. -/
def token_hex16 (seed : Nat) : String :=
  String.mk (hexChars 32 seed)

/-! ## Response schemas (`backend/app/schemas.py`) -/

/-- `schemas.Token`. -/
structure Token where
  access_token : TokenV
  token_type : String
deriving Repr, DecidableEq

/-- `schemas.BinderOut`. -/
structure BinderOut where
  id : Nat
  name : String
  industry : String
  created_at : Nat
deriving Repr, DecidableEq

/-- `schemas.TaskOut`. -/
structure TaskOut where
  id : Nat
  title : String
  description : String
  status : String
  due_date : Option Nat
  created_at : Nat
  is_overdue : Bool
deriving Repr, DecidableEq

/-- `schemas.DocumentOut`. -/
structure DocumentOut where
  id : Nat
  original_name : String
  content_type : String
  note : String
  uploaded_at : Nat
deriving Repr, DecidableEq

/-- The payload of `FileResponse(path, media_type=..., filename=...)`:
the bytes read from `path` plus the response metadata. -/
structure FileResp where
  content : List Nat
  media_type : String
  filename : String
deriving Repr, DecidableEq

/-- The data `binder_report` renders into its HTML tables, in rendering
order: binder header, open tasks, completed tasks, documents. -/
structure Report where
  binder_name : String
  industry : String
  open_tasks : List Task
  done_tasks : List Task
  docs : List Document
deriving Repr, DecidableEq

/-! ## Persistent state and request environment -/

/-- The persisted world: the four SQLite tables (rows in insertion order,
ids from per-table autoincrement counters) plus the upload directory,
modelled as an association list from stored path to byte content where a
later write to the same path shadows the earlier entry. -/
structure St where
  users : List User
  binders : List Binder
  tasks : List Task
  documents : List Document
  files : List (String × List Nat)
  next_user_id : Nat
  next_binder_id : Nat
  next_task_id : Nat
  next_doc_id : Nat
deriving Repr, DecidableEq

/-- Ambient per-request inputs: the configured signing secret and upload
root, the clock (`datetime.utcnow` / `date.today`), the entropy feeding
`secrets.token_hex`, the configured token lifetime, and the bcrypt
primitives of `security.py` kept abstract. -/
structure Env where
  secret : String
  now : Nat
  today : Nat
  upload_dir : String
  seed : Nat
  access_token_expire_minutes : Nat
  hash_password : String → String
  verify_password : String → String → Bool

/-- `session.get(Binder, binder_id)`: primary-key lookup. -/
def findBinder (s : St) (i : Nat) : Option Binder :=
  s.binders.find? (fun b => b.id == i)

/-- `session.get(Task, task_id)`: primary-key lookup. -/
def findTask (s : St) (i : Nat) : Option Task :=
  s.tasks.find? (fun t => t.id == i)

/-- `session.get(Document, doc_id)`: primary-key lookup. -/
def findDocument (s : St) (i : Nat) : Option Document :=
  s.documents.find? (fun d => d.id == i)

/-! ## Authentication and the ownership guard (`backend/app/main.py`) -/

/-- `main.get_current_user`: decode the bearer token, read the `sub` claim
(raising inside the same `try` when it is missing or falsy, so every decode
failure collapses to 401 "Invalid token"), then resolve the identity row;
an unknown subject yields 401 "User not found". -/
def get_current_user (env : Env) (tok : TokenV) (s : St) : Except HTTPError User :=
  match jwt_decode tok env.secret env.now with
  | .error _ => .error ⟨401, "Invalid token"⟩
  | .ok payload =>
    match payload.sub with
    | none => .error ⟨401, "Invalid token"⟩
    | some email =>
      if email = "" then .error ⟨401, "Invalid token"⟩
      else
        match s.users.find? (fun u => u.email == email) with
        | none => .error ⟨401, "User not found"⟩
        | some u => .ok u

/-- `main._get_binder_or_404`: load the binder by id and require the caller
to own it; a missing binder and a binder owned by someone else produce the
identical 404 "Binder not found". -/
def get_binder_or_404 (binder_id : Nat) (me : User) (s : St) : Except HTTPError Binder :=
  match findBinder s binder_id with
  | none => .error ⟨404, "Binder not found"⟩
  | some binder =>
    if binder.owner_id = me.id then .ok binder
    else .error ⟨404, "Binder not found"⟩

/-! ## Endpoints (`backend/app/main.py`) -/

/-- `POST /auth/register`: reject an already-registered email with
400 "Email already registered", otherwise insert the new identity with the
bcrypt hash of the password. -/
def register (env : Env) (email password : String) (s : St) :
    Except HTTPError Unit × St :=
  match s.users.find? (fun u => u.email == email) with
  | some _ => (.error ⟨400, "Email already registered"⟩, s)
  | none =>
    let u : User := ⟨s.next_user_id, email, env.hash_password password, env.now⟩
    (.ok (), { s with users := s.users ++ [u], next_user_id := s.next_user_id + 1 })

/-- `POST /auth/token`: verify the password against the stored hash; unknown
email and wrong password produce the same 401 "Bad credentials". -/
def login (env : Env) (username password : String) (s : St) :
    Except HTTPError Token × St :=
  match s.users.find? (fun u => u.email == username) with
  | none => (.error ⟨401, "Bad credentials"⟩, s)
  | some u =>
    if env.verify_password password u.password_hash then
      (.ok ⟨create_access_token env.secret u.email env.now env.access_token_expire_minutes,
            "bearer"⟩, s)
    else (.error ⟨401, "Bad credentials"⟩, s)

/-- `created_at` descending, the order of `GET /binders`. -/
def createdGe (a b : Binder) : Prop := b.created_at ≤ a.created_at

instance : DecidableRel createdGe := fun a b => Nat.decLe b.created_at a.created_at

/-- `GET /binders`: the caller's binders, newest first. -/
def list_binders (env : Env) (tok : TokenV) (s : St) :
    Except HTTPError (List BinderOut) × St :=
  match get_current_user env tok s with
  | .error e => (.error e, s)
  | .ok me =>
    let bs := (s.binders.filter (fun b => b.owner_id == me.id)).insertionSort createdGe
    (.ok (bs.map (fun b => ⟨b.id, b.name, b.industry, b.created_at⟩)), s)

/-- `POST /binders`: create a binder owned by the caller. -/
def create_binder (env : Env) (tok : TokenV) (name industry : String) (s : St) :
    Except HTTPError BinderOut × St :=
  match get_current_user env tok s with
  | .error e => (.error e, s)
  | .ok me =>
    let b : Binder := ⟨s.next_binder_id, name, industry, env.now, me.id⟩
    (.ok ⟨b.id, b.name, b.industry, b.created_at⟩,
     { s with binders := s.binders ++ [b], next_binder_id := s.next_binder_id + 1 })

/-- The rows of `select(Task).where(Task.binder_id == binder_id)`. -/
def tasksOf (s : St) (binder_id : Nat) : List Task :=
  s.tasks.filter (fun t => t.binder_id == binder_id)

/-- The rows of `select(Document).where(Document.binder_id == binder_id)`. -/
def docsOf (s : St) (binder_id : Nat) : List Document :=
  s.documents.filter (fun d => d.binder_id == binder_id)

/-- `created_at` descending on tasks, the order of `GET .../tasks`. -/
def taskCreatedGe (a b : Task) : Prop := b.created_at ≤ a.created_at

instance : DecidableRel taskCreatedGe := fun a b => Nat.decLe b.created_at a.created_at

/-- `GET /binders/{binder_id}/tasks`: guard ownership, then list the
binder's tasks newest first, with the computed `is_overdue` flag. -/
def list_tasks (env : Env) (tok : TokenV) (binder_id : Nat) (s : St) :
    Except HTTPError (List TaskOut) × St :=
  match get_current_user env tok s with
  | .error e => (.error e, s)
  | .ok me =>
    match get_binder_or_404 binder_id me s with
    | .error e => (.error e, s)
    | .ok _ =>
      let ts := (tasksOf s binder_id).insertionSort taskCreatedGe
      (.ok (ts.map (fun t =>
        ⟨t.id, t.title, t.description, t.status, t.due_date, t.created_at,
         decide (t.status ≠ "done") &&
           (match t.due_date with
            | none => false
            | some d => decide (d < env.today))⟩)), s)

/-- `POST /binders/{binder_id}/tasks`: guard ownership, then insert a task
with the model's default status `"open"`. -/
def create_task (env : Env) (tok : TokenV) (binder_id : Nat)
    (title description : String) (due_date : Option Nat) (s : St) :
    Except HTTPError TaskOut × St :=
  match get_current_user env tok s with
  | .error e => (.error e, s)
  | .ok me =>
    match get_binder_or_404 binder_id me s with
    | .error e => (.error e, s)
    | .ok _ =>
      let t : Task := ⟨s.next_task_id, title, description, "open", due_date, env.now, binder_id⟩
      (.ok ⟨t.id, t.title, t.description, t.status, t.due_date, t.created_at, false⟩,
       { s with tasks := s.tasks ++ [t], next_task_id := s.next_task_id + 1 })

/-- The row-level effect of the mark-done commit: the task with the given
id gets `status = "done"`, every other row is untouched. -/
def setDone (task_id : Nat) (t : Task) : Task :=
  if t.id = task_id then { t with status := "done" } else t

/-- `POST /tasks/{task_id}/done`: load the task, re-derive ownership through
its parent binder (missing task, missing binder and foreign binder all give
the same 404 "Task not found"), then persist `status = "done"`.  The
handler also assigns `task.updated_at`, but `models.Task` declares no such
column, so only the declared columns — here `status` — reach the row. -/
def mark_done (env : Env) (tok : TokenV) (task_id : Nat) (s : St) :
    Except HTTPError Unit × St :=
  match get_current_user env tok s with
  | .error e => (.error e, s)
  | .ok me =>
    match findTask s task_id with
    | none => (.error ⟨404, "Task not found"⟩, s)
    | some task =>
      match findBinder s task.binder_id with
      | none => (.error ⟨404, "Task not found"⟩, s)
      | some binder =>
        if binder.owner_id = me.id then
          (.ok (), { s with tasks := s.tasks.map (setDone task_id) })
        else (.error ⟨404, "Task not found"⟩, s)

/-- `uploaded_at` descending, the order of `GET .../documents`. -/
def uploadedGe (a b : Document) : Prop := b.uploaded_at ≤ a.uploaded_at

instance : DecidableRel uploadedGe := fun a b => Nat.decLe b.uploaded_at a.uploaded_at

/-- `GET /binders/{binder_id}/documents`: guard ownership, then list the
binder's documents newest first. -/
def list_documents (env : Env) (tok : TokenV) (binder_id : Nat) (s : St) :
    Except HTTPError (List DocumentOut) × St :=
  match get_current_user env tok s with
  | .error e => (.error e, s)
  | .ok me =>
    match get_binder_or_404 binder_id me s with
    | .error e => (.error e, s)
    | .ok _ =>
      let ds := (docsOf s binder_id).insertionSort uploadedGe
      (.ok (ds.map (fun d =>
        ⟨d.id, d.original_name, d.content_type, d.note, d.uploaded_at⟩)), s)

/-- `file.content_type or "application/octet-stream"`. -/
def contentTypeOrDefault : Option String → String
  | none => "application/octet-stream"
  | some c => if c = "" then "application/octet-stream" else c

/-- `POST /binders/{binder_id}/documents`: guard ownership, build
`safe_name = token_hex(16) + "_" + os.path.basename(file.filename)`, write
the bytes to `upload_dir / safe_name`, and insert the document row.  No
size or content-type check occurs anywhere in the handler. -/
def upload_document (env : Env) (tok : TokenV) (binder_id : Nat)
    (filename : String) (content_type : Option String) (content : List Nat)
    (note : String) (s : St) : Except HTTPError Unit × St :=
  match get_current_user env tok s with
  | .error e => (.error e, s)
  | .ok me =>
    match get_binder_or_404 binder_id me s with
    | .error e => (.error e, s)
    | .ok _ =>
      let safe_name := token_hex16 env.seed ++ "_" ++ os_path_basename filename
      let dest := env.upload_dir ++ "/" ++ safe_name
      let doc : Document :=
        ⟨s.next_doc_id, safe_name, filename, contentTypeOrDefault content_type,
         note, env.now, binder_id⟩
      (.ok (),
       { s with files := (dest, content) :: s.files,
                documents := s.documents ++ [doc],
                next_doc_id := s.next_doc_id + 1 })

/-- `GET /documents/{doc_id}/download`: load the document, re-derive
ownership through its parent binder (missing document, missing binder and
foreign binder all give the same 404 "Doc not found"), then serve the bytes
at `upload_dir / doc.filename` with the stored content type and the
original filename. -/
def download_document (env : Env) (tok : TokenV) (doc_id : Nat) (s : St) :
    Except HTTPError FileResp × St :=
  match get_current_user env tok s with
  | .error e => (.error e, s)
  | .ok me =>
    match findDocument s doc_id with
    | none => (.error ⟨404, "Doc not found"⟩, s)
    | some doc =>
      match findBinder s doc.binder_id with
      | none => (.error ⟨404, "Doc not found"⟩, s)
      | some binder =>
        if binder.owner_id = me.id then
          match s.files.lookup (env.upload_dir ++ "/" ++ doc.filename) with
          | none => (.error ⟨404, "File missing on server"⟩, s)
          | some bytes => (.ok ⟨bytes, doc.content_type, doc.original_name⟩, s)
        else (.error ⟨404, "Doc not found"⟩, s)

/-- `date.max` as a proleptic ordinal (`date(9999, 12, 31).toordinal()`). -/
def dateMax : Nat := 3652059

/-- The report's sort key `x.due_date or date.max`. -/
def dueKey (t : Task) : Nat := t.due_date.getD dateMax

/-- Due date ascending with `None` mapped to `date.max`, the order of both
task tables in the report. -/
def dueLe (a b : Task) : Prop := dueKey a ≤ dueKey b

instance : DecidableRel dueLe := fun a b => Nat.decLe (dueKey a) (dueKey b)

/-- `GET /binders/{binder_id}/report`: guard ownership, split the binder's
tasks on `status == "done"`, sort both partitions by
`x.due_date or date.max` ascending, sort documents by upload time
descending, and render.  Python's `sorted` is a stable sort, embedded here
as insertion sort (also stable, hence extensionally the same function). -/
def binder_report (env : Env) (tok : TokenV) (binder_id : Nat) (s : St) :
    Except HTTPError Report × St :=
  match get_current_user env tok s with
  | .error e => (.error e, s)
  | .ok me =>
    match get_binder_or_404 binder_id me s with
    | .error e => (.error e, s)
    | .ok binder =>
      let tasks := tasksOf s binder_id
      let open_tasks := tasks.filter (fun t => decide (t.status ≠ "done"))
      let done_tasks := tasks.filter (fun t => t.status == "done")
      (.ok ⟨binder.name, binder.industry,
            open_tasks.insertionSort dueLe,
            done_tasks.insertionSort dueLe,
            (docsOf s binder_id).insertionSort uploadedGe⟩, s)

/-! ## The request surface as one step relation -/

/-- One API request, with its bearer token where the endpoint requires one. -/
inductive Req where
  | register (email password : String)
  | login (username password : String)
  | listBinders (tok : TokenV)
  | createBinder (tok : TokenV) (name industry : String)
  | listTasks (tok : TokenV) (binder_id : Nat)
  | createTask (tok : TokenV) (binder_id : Nat) (title description : String)
      (due_date : Option Nat)
  | markDone (tok : TokenV) (task_id : Nat)
  | listDocuments (tok : TokenV) (binder_id : Nat)
  | uploadDocument (tok : TokenV) (binder_id : Nat) (filename : String)
      (content_type : Option String) (content : List Nat) (note : String)
  | downloadDocument (tok : TokenV) (doc_id : Nat)
  | binderReport (tok : TokenV) (binder_id : Nat)
deriving Repr, DecidableEq

/-- The bearer token a request carries, if any. -/
def Req.tokOf : Req → Option TokenV
  | .register _ _ => none
  | .login _ _ => none
  | .listBinders tok => some tok
  | .createBinder tok _ _ => some tok
  | .listTasks tok _ => some tok
  | .createTask tok _ _ _ _ => some tok
  | .markDone tok _ => some tok
  | .listDocuments tok _ => some tok
  | .uploadDocument tok _ _ _ _ _ => some tok
  | .downloadDocument tok _ => some tok
  | .binderReport tok _ => some tok

/-- A successful response body, one constructor per endpoint payload. -/
inductive Out where
  | jsonOk
  | issued (t : Token)
  | binders (l : List BinderOut)
  | binder (b : BinderOut)
  | tasks (l : List TaskOut)
  | task (t : TaskOut)
  | documents (l : List DocumentOut)
  | file (f : FileResp)
  | report (r : Report)
deriving Repr, DecidableEq

/-- Wrap an endpoint result into the uniform response type. -/
def wrap (f : α → Out) : Except HTTPError α × St → Except HTTPError Out × St :=
  fun p => (p.1.map f, p.2)

/-- The whole API: dispatch one request against the persisted state. -/
def step (env : Env) (r : Req) (s : St) : Except HTTPError Out × St :=
  match r with
  | .register email password => wrap (fun _ => .jsonOk) (register env email password s)
  | .login username password => wrap Out.issued (login env username password s)
  | .listBinders tok => wrap Out.binders (list_binders env tok s)
  | .createBinder tok name industry => wrap Out.binder (create_binder env tok name industry s)
  | .listTasks tok bid => wrap Out.tasks (list_tasks env tok bid s)
  | .createTask tok bid title descr due => wrap Out.task (create_task env tok bid title descr due s)
  | .markDone tok tid => wrap (fun _ => .jsonOk) (mark_done env tok tid s)
  | .listDocuments tok bid => wrap Out.documents (list_documents env tok bid s)
  | .uploadDocument tok bid fn ct content note =>
      wrap (fun _ => .jsonOk) (upload_document env tok bid fn ct content note s)
  | .downloadDocument tok did => wrap Out.file (download_document env tok did s)
  | .binderReport tok bid => wrap Out.report (binder_report env tok bid s)

/-- Autoincrement discipline: every row id is below its table's counter
(what SQLite guarantees for the primary keys the handlers rely on). -/
def Wf (s : St) : Prop :=
  (∀ u ∈ s.users, u.id < s.next_user_id) ∧
  (∀ b ∈ s.binders, b.id < s.next_binder_id) ∧
  (∀ t ∈ s.tasks, t.id < s.next_task_id) ∧
  (∀ d ∈ s.documents, d.id < s.next_doc_id)

instance (s : St) : Decidable (Wf s) := by
  unfold Wf
  infer_instance

/-! ## Property vocabulary and concrete fixtures -/

/-- The sixteen lowercase hexadecimal characters. -/
def hexAlphabet : List Char :=
  (List.range 16).map hexDigit

/-- `path` lies strictly within `root`: it is `root / name` for one single
non-empty component that is not a directory reference (`.` or `..`) and
contains no path separator, so resolving it cannot escape `root`. -/
def strictlyWithin (root path : String) : Prop :=
  ∃ name : String,
    path = root ++ "/" ++ name ∧ name.data ≠ [] ∧ name ≠ "." ∧ name ≠ ".." ∧
    '/' ∉ name.data

instance : IsTotal Task dueLe :=
  ⟨fun a b => Nat.le_total (dueKey a) (dueKey b)⟩

instance : IsTrans Task dueLe :=
  ⟨fun _ _ _ h1 h2 => Nat.le_trans h1 h2⟩

instance : IsTotal Document uploadedGe :=
  ⟨fun a b => Nat.le_total b.uploaded_at a.uploaded_at⟩

instance : IsTrans Document uploadedGe :=
  ⟨fun _ _ _ h1 h2 => Nat.le_trans h2 h1⟩

/-- A concrete request environment used by the witnesses: secret `"k"`,
clock at 50, today 60, upload root `"/up"`, entropy 7, bcrypt modelled by
an injective tagging function. -/
def envW : Env :=
  ⟨"k", 50, 60, "/up", 7, 60, fun p => p ++ "#h", fun p h => h == p ++ "#h"⟩

/-- Witness identity X. -/
def userX : User := ⟨1, "x@x.com", "pwx#h", 1⟩

/-- Witness identity Y. -/
def userY : User := ⟨2, "y@x.com", "pwy#h", 2⟩

/-- A binder owned by X. -/
def binder1 : Binder := ⟨1, "Safety", "general", 3, 1⟩

/-- An open task of `binder1` due at 40. -/
def task1 : Task := ⟨1, "t1", "", "open", some 40, 4, 1⟩

/-- An open task of `binder1` with no due date. -/
def task2 : Task := ⟨2, "t2", "", "open", none, 5, 1⟩

/-- A done task of `binder1` due at 30. -/
def task3 : Task := ⟨3, "t3", "", "done", some 30, 6, 1⟩

/-- A stored document of `binder1`. -/
def doc1 : Document := ⟨1, "ab_f.txt", "f.txt", "text/plain", "", 7, 1⟩

/-- The witness store: identities X and Y, X's binder with three tasks and
one document whose bytes sit in the upload root. -/
def stW : St :=
  ⟨[userX, userY], [binder1], [task1, task2, task3], [doc1],
   [("/up/ab_f.txt", [1, 2, 3])], 3, 2, 4, 2⟩

/-- A valid unexpired token for X under `envW`. -/
def tokX : TokenV := jwt_encode ⟨some "x@x.com", 100⟩ "k"

/-- A valid unexpired token for Y under `envW`. -/
def tokY : TokenV := jwt_encode ⟨some "y@x.com", 100⟩ "k"

/-! ## Helper lemmas -/

theorem hexDigit_mem_alphabet (n : Nat) : hexDigit n ∈ hexAlphabet := by
  unfold hexDigit
  split <;> decide

theorem hexDigit_ne_slash (n : Nat) : hexDigit n ≠ '/' := by
  unfold hexDigit
  split <;> decide

theorem hexChars_ne_slash (k n : Nat) : ∀ c ∈ hexChars k n, c ≠ '/' := by
  induction k generalizing n with
  | zero => intro c hc; simp [hexChars] at hc
  | succ k ih =>
    intro c hc
    simp only [hexChars, List.mem_cons] at hc
    rcases hc with h | h
    · exact h ▸ hexDigit_ne_slash _
    · exact ih _ c h

theorem hexChars_mem_alphabet (k n : Nat) : ∀ c ∈ hexChars k n, c ∈ hexAlphabet := by
  induction k generalizing n with
  | zero => intro c hc; simp [hexChars] at hc
  | succ k ih =>
    intro c hc
    simp only [hexChars, List.mem_cons] at hc
    rcases hc with h | h
    · exact h ▸ hexDigit_mem_alphabet _
    · exact ih _ c h

theorem hexChars_length (k n : Nat) : (hexChars k n).length = k := by
  induction k generalizing n with
  | zero => rfl
  | succ k ih => simp [hexChars, ih]

theorem basenameChars_no_slash (l : List Char) : '/' ∉ basenameChars l := by
  unfold basenameChars
  intro h
  rw [List.mem_reverse] at h
  have := List.mem_takeWhile_imp h
  simp at this

/-- The characters of the stored filename built by `upload_document`. -/
theorem safe_name_data (seed : Nat) (orig : String) :
    (token_hex16 seed ++ "_" ++ os_path_basename orig).data =
      hexChars 32 seed ++ '_' :: basenameChars orig.data := by
  simp [token_hex16, os_path_basename, String.data_append]

/-- The path `upload_document` writes to stays strictly inside the root. -/
theorem strictlyWithin_upload (root : String) (seed : Nat) (orig : String) :
    strictlyWithin root
      (root ++ "/" ++ (token_hex16 seed ++ "_" ++ os_path_basename orig)) := by
  refine ⟨token_hex16 seed ++ "_" ++ os_path_basename orig, rfl, ?_, ?_, ?_, ?_⟩
  · rw [safe_name_data]
    intro h
    have := congrArg List.length h
    simp [hexChars_length] at this
  · intro h
    rw [String.ext_iff, safe_name_data] at h
    have := congrArg List.length h
    simp [hexChars_length] at this
    omega
  · intro h
    rw [String.ext_iff, safe_name_data] at h
    have := congrArg List.length h
    simp [hexChars_length] at this
    omega
  · rw [safe_name_data]
    intro h
    rcases List.mem_append.mp h with h1 | h1
    · exact hexChars_ne_slash 32 seed _ h1 rfl
    · rcases List.mem_cons.mp h1 with h2 | h2
      · cases h2
      · exact basenameChars_no_slash _ h2

/-- `get_current_user` reads only the identity table. -/
theorem get_current_user_users_congr (env : Env) (tok : TokenV) (s s2 : St)
    (h : s.users = s2.users) :
    get_current_user env tok s = get_current_user env tok s2 := by
  unfold get_current_user
  rw [h]

/-- A binder owned by someone else yields the 404 of a missing binder. -/
theorem get_binder_or_404_foreign (bid : Nat) (me : User) (s : St) (b : Binder)
    (hb : findBinder s bid = some b) (hown : b.owner_id ≠ me.id) :
    get_binder_or_404 bid me s = .error ⟨404, "Binder not found"⟩ := by
  unfold get_binder_or_404
  rw [hb]
  simp [hown]

/-- A missing binder yields 404 "Binder not found". -/
theorem get_binder_or_404_absent (bid : Nat) (me : User) (s : St)
    (hb : findBinder s bid = none) :
    get_binder_or_404 bid me s = .error ⟨404, "Binder not found"⟩ := by
  unfold get_binder_or_404
  rw [hb]

/-- A binder owned by the caller passes the guard. -/
theorem get_binder_or_404_owner (bid : Nat) (me : User) (s : St) (b : Binder)
    (hb : findBinder s bid = some b) (hown : b.owner_id = me.id) :
    get_binder_or_404 bid me s = .ok b := by
  unfold get_binder_or_404
  rw [hb]
  simp [hown]

/-! ## Claim theorems -/

/-- C3 (counterexample): with `ENV=qa` — an environment name that is not a
development environment — and no secret configured, the `config.py`
fail-fast guard does not fire and startup proceeds, refuting the claim that
every non-development environment aborts on an unset secret. -/
theorem c3_qa_counterexample :
    startup_secret_check "qa" none = false ∧
    "qa" ∉ (["dev", "development", ""] : List String) := by
  decide

/-- C3 (amended): for every environment name whose lowercase form is one of
`prod`, `production`, `staging`, an unset (or empty) secret makes the
module-level check in `config.py` raise; other environment names proceed. -/
theorem c3_fail_fast_on_named_deploy_envs (env_name : String) (secret_key : Option String)
    (henv : pyLower env_name ∈ ["prod", "production", "staging"])
    (hsec : pyFalsyStr secret_key = true) :
    startup_secret_check env_name secret_key = true := by
  unfold startup_secret_check
  simp [henv, hsec]

/-- Witness for `c3_fail_fast_on_named_deploy_envs` at `ENV=PROD`, no secret. -/
theorem c3_fail_fast_witness : startup_secret_check "PROD" none = true :=
  c3_fail_fast_on_named_deploy_envs "PROD" none (by decide) rfl

/-- C4: `upload_document` enforces neither `max_upload_size_bytes` nor
`allowed_content_types`: for any byte content whatsoever a `text/plain`
upload succeeds, the document row is created and the file stored; in
particular content one byte over the configured limit, with a content type
outside the configured allowlist, is accepted rather than rejected with
PayloadTooLarge or UnsupportedMediaType. -/
theorem c4_upload_limits_unenforced :
    (∀ content : List Nat,
      upload_document envW tokX 1 "big.txt" (some "text/plain") content "" stW =
        (.ok (),
         { stW with
             files := ("/up/70000000000000000000000000000000_big.txt", content) :: stW.files,
             documents := stW.documents ++
               [⟨2, "70000000000000000000000000000000_big.txt", "big.txt",
                 "text/plain", "", 50, 1⟩],
             next_doc_id := 3 })) ∧
    (List.replicate (max_upload_size_bytes + 1) (0 : Nat)).length > max_upload_size_bytes ∧
    "text/plain" ∉ allowed_content_types := by
  refine ⟨fun content => rfl, ?_, by decide⟩
  rw [List.length_replicate]
  exact Nat.lt_succ_self _

/-- C5 (counterexample): a token whose embedded expiry is 100, verified at
time 100 — i.e. at the expiry instant, hence "at or after" it — still
resolves to its subject instead of failing `ExpiredToken`: jose only
rejects when the current time strictly exceeds `exp`. -/
theorem c5_at_expiry_succeeds :
    create_access_token "k" "a@x.com" 40 1 = jwt_encode ⟨some "a@x.com", 100⟩ "k" ∧
    jwt_decode (create_access_token "k" "a@x.com" 40 1) "k" 100 =
      .ok ⟨some "a@x.com", 100⟩ := by
  decide

/-- C5 (amended): a token issued for subject X and verified at or before
its embedded expiry resolves to X; verified strictly after the expiry it
fails `ExpiredToken`; a signature produced under a different secret fails
`InvalidSignature` (checked before expiry); an unparseable token fails
`MalformedToken`. -/
theorem c5_token_lifecycle (secret secret2 sub raw : String) (c : Claims) (e now : Nat) :
    (now ≤ e →
      jwt_decode (jwt_encode ⟨some sub, e⟩ secret) secret now = .ok ⟨some sub, e⟩) ∧
    (e < now →
      jwt_decode (jwt_encode ⟨some sub, e⟩ secret) secret now = .error .expiredToken) ∧
    (secret2 ≠ secret →
      jwt_decode (jwt_encode c secret2) secret now = .error .invalidSignature) ∧
    jwt_decode (.malformed raw) secret now = .error .malformedToken := by
  refine ⟨?_, ?_, ?_, rfl⟩
  · intro h
    simp [jwt_decode, jwt_encode, Nat.not_lt.mpr h]
  · intro h
    simp [jwt_decode, jwt_encode, h]
  · intro h
    simp [jwt_decode, jwt_encode, Prod.ext_iff, h]

/-- Witness for `c5_token_lifecycle`: the three verification outcomes and
the malformed case at concrete tokens, times 99 and 101 around expiry 100. -/
theorem c5_token_lifecycle_witness :
    jwt_decode (jwt_encode ⟨some "a@x.com", 100⟩ "k") "k" 99 = .ok ⟨some "a@x.com", 100⟩ ∧
    jwt_decode (jwt_encode ⟨some "a@x.com", 100⟩ "k") "k" 101 = .error .expiredToken ∧
    jwt_decode (jwt_encode ⟨some "a@x.com", 100⟩ "kk") "k" 99 = .error .invalidSignature ∧
    jwt_decode (.malformed "zz") "k" 99 = .error .malformedToken := by
  refine ⟨?_, ?_, ?_, ?_⟩
  · exact (c5_token_lifecycle "k" "kk" "a@x.com" "zz" ⟨some "a@x.com", 100⟩ 100 99).1
      (by decide)
  · exact (c5_token_lifecycle "k" "kk" "a@x.com" "zz" ⟨some "a@x.com", 100⟩ 100 101).2.1
      (by decide)
  · exact (c5_token_lifecycle "k" "kk" "a@x.com" "zz" ⟨some "a@x.com", 100⟩ 100 99).2.2.1
      (by decide)
  · exact (c5_token_lifecycle "k" "kk" "a@x.com" "zz" ⟨some "a@x.com", 100⟩ 100 99).2.2.2

/-- C9: `models.Task` declares no `updated_at` column — only `created_at` —
so the `task.updated_at = datetime.utcnow()` assignment in `mark_done`
targets an undeclared attribute and is never persisted: the row after a
successful mark-done differs from the original in `status` alone, and no
update-timestamp field exists to reflect the mutation time. -/
theorem c9_update_timestamp_not_persisted :
    ("updated_at" ∉ task_table_columns) ∧
    ("created_at" ∈ task_table_columns) ∧
    mark_done envW tokX 1 stW =
      (.ok (), { stW with tasks := [{ task1 with status := "done" }, task2, task3] }) := by
  decide

/-- C1: when an authenticated caller targets a binder owned by a different
identity, every scoped operation — list tasks, create task, mark task done,
list documents, upload document, download document, report — fails with the
exact 404 body produced when the resource does not exist (the last three
conjuncts), leaves the store untouched, and no distinguishable Forbidden
error is ever produced. -/
theorem c1_cross_tenant_not_found (env : Env) (s : St) (tok : TokenV) (me : User)
    (bid : Nat) (b : Binder)
    (hme : get_current_user env tok s = .ok me)
    (hb : findBinder s bid = some b)
    (hown : b.owner_id ≠ me.id) :
    list_tasks env tok bid s = (.error ⟨404, "Binder not found"⟩, s) ∧
    (∀ title descr due,
      create_task env tok bid title descr due s = (.error ⟨404, "Binder not found"⟩, s)) ∧
    list_documents env tok bid s = (.error ⟨404, "Binder not found"⟩, s) ∧
    (∀ fn ct content note,
      upload_document env tok bid fn ct content note s =
        (.error ⟨404, "Binder not found"⟩, s)) ∧
    binder_report env tok bid s = (.error ⟨404, "Binder not found"⟩, s) ∧
    (∀ tid t, findTask s tid = some t → t.binder_id = bid →
      mark_done env tok tid s = (.error ⟨404, "Task not found"⟩, s)) ∧
    (∀ did d, findDocument s did = some d → d.binder_id = bid →
      download_document env tok did s = (.error ⟨404, "Doc not found"⟩, s)) ∧
    (∀ bid2, findBinder s bid2 = none →
      list_tasks env tok bid2 s = (.error ⟨404, "Binder not found"⟩, s)) ∧
    (∀ tid, findTask s tid = none →
      mark_done env tok tid s = (.error ⟨404, "Task not found"⟩, s)) ∧
    (∀ did, findDocument s did = none →
      download_document env tok did s = (.error ⟨404, "Doc not found"⟩, s)) := by
  have hguard := get_binder_or_404_foreign bid me s b hb hown
  refine ⟨?_, ?_, ?_, ?_, ?_, ?_, ?_, ?_, ?_, ?_⟩
  · simp [list_tasks, hme, hguard]
  · intro title descr due
    simp [create_task, hme, hguard]
  · simp [list_documents, hme, hguard]
  · intro fn ct content note
    simp [upload_document, hme, hguard]
  · simp [binder_report, hme, hguard]
  · intro tid t ht hbid
    simp [mark_done, hme, ht, hbid, hb, hown]
  · intro did d hd hbid
    simp [download_document, hme, hd, hbid, hb, hown]
  · intro bid2 h2
    simp [list_tasks, hme, get_binder_or_404_absent bid2 me s h2]
  · intro tid ht
    simp [mark_done, hme, ht]
  · intro did hd
    simp [download_document, hme, hd]

/-- Witness for `c1_cross_tenant_not_found`: Y's valid token against X's
binder 1, its task 1 and its document 1. -/
theorem c1_cross_tenant_witness :
    list_tasks envW tokY 1 stW = (.error ⟨404, "Binder not found"⟩, stW) ∧
    create_task envW tokY 1 "t" "" none stW = (.error ⟨404, "Binder not found"⟩, stW) ∧
    list_documents envW tokY 1 stW = (.error ⟨404, "Binder not found"⟩, stW) ∧
    upload_document envW tokY 1 "f.txt" none [] "" stW =
      (.error ⟨404, "Binder not found"⟩, stW) ∧
    binder_report envW tokY 1 stW = (.error ⟨404, "Binder not found"⟩, stW) ∧
    mark_done envW tokY 1 stW = (.error ⟨404, "Task not found"⟩, stW) ∧
    download_document envW tokY 1 stW = (.error ⟨404, "Doc not found"⟩, stW) := by
  obtain ⟨h1, h2, h3, h4, h5, h6, h7, -, -, -⟩ :=
    c1_cross_tenant_not_found envW stW tokY userY 1 binder1 (by decide) (by decide)
      (by decide)
  exact ⟨h1, h2 "t" "" none, h3, h4 "f.txt" none [] "", h5,
         h6 1 task1 (by decide) (by decide), h7 1 doc1 (by decide) (by decide)⟩

/-- C2: uploading a file whose user-supplied name may carry directory
components stores it under `token_hex(16) + "_" + basename(name)` (a hex
token prefixed to the basename), the path written — and later read back by
download — lies strictly within the configured upload root, and downloading
the created document returns exactly the uploaded bytes with the stored
content type and the original name. -/
theorem c2_upload_sanitized_roundtrip (env : Env) (s : St) (tok : TokenV) (me : User)
    (bid : Nat) (b : Binder) (orig note : String) (ct : Option String) (content : List Nat)
    (hme : get_current_user env tok s = .ok me)
    (hb : findBinder s bid = some b)
    (hown : b.owner_id = me.id)
    (hfresh : ∀ d ∈ s.documents, d.id ≠ s.next_doc_id) :
    (upload_document env tok bid orig ct content note s).1 = .ok () ∧
    findDocument (upload_document env tok bid orig ct content note s).2 s.next_doc_id =
      some ⟨s.next_doc_id, token_hex16 env.seed ++ "_" ++ os_path_basename orig, orig,
            contentTypeOrDefault ct, note, env.now, bid⟩ ∧
    (∀ c ∈ (token_hex16 env.seed).data, c ∈ hexAlphabet) ∧
    strictlyWithin env.upload_dir
      (env.upload_dir ++ "/" ++ (token_hex16 env.seed ++ "_" ++ os_path_basename orig)) ∧
    (upload_document env tok bid orig ct content note s).2.files.lookup
      (env.upload_dir ++ "/" ++ (token_hex16 env.seed ++ "_" ++ os_path_basename orig)) =
      some content ∧
    (download_document env tok s.next_doc_id
        (upload_document env tok bid orig ct content note s).2).1 =
      .ok ⟨content, contentTypeOrDefault ct, orig⟩ := by
  have hguard := get_binder_or_404_owner bid me s b hb hown
  have hup : upload_document env tok bid orig ct content note s =
      (.ok (),
       { s with
           files := (env.upload_dir ++ "/" ++
                       (token_hex16 env.seed ++ "_" ++ os_path_basename orig),
                     content) :: s.files,
           documents := s.documents ++
             [⟨s.next_doc_id, token_hex16 env.seed ++ "_" ++ os_path_basename orig, orig,
               contentTypeOrDefault ct, note, env.now, bid⟩],
           next_doc_id := s.next_doc_id + 1 }) := by
    simp [upload_document, hme, hguard]
  have hnone : s.documents.find? (fun d => d.id == s.next_doc_id) = none := by
    rw [List.find?_eq_none]
    intro d hd
    simpa using hfresh d hd
  have hfind : findDocument (upload_document env tok bid orig ct content note s).2
      s.next_doc_id =
      some ⟨s.next_doc_id, token_hex16 env.seed ++ "_" ++ os_path_basename orig, orig,
            contentTypeOrDefault ct, note, env.now, bid⟩ := by
    rw [hup]
    simp [findDocument, List.find?_append, hnone]
  refine ⟨by rw [hup], hfind, hexChars_mem_alphabet 32 env.seed,
          strictlyWithin_upload _ _ _, ?_, ?_⟩
  · rw [hup]
    simp [List.lookup_cons]
  · have hgcu2 : get_current_user env tok
        (upload_document env tok bid orig ct content note s).2 = .ok me := by
      rw [hup]
      exact (get_current_user_users_congr env tok _ s rfl).trans hme
    have hb2 : findBinder (upload_document env tok bid orig ct content note s).2 bid =
        some b := by
      rw [hup]
      exact hb
    simp only [download_document, hgcu2, hfind, hb2, hown, if_pos]
    rw [hup]
    simp [List.lookup_cons]

/-- Witness for `c2_upload_sanitized_roundtrip`: X uploads a file named
`../../etc/passwd` with bytes `[1, 2]`; it is stored as
`<hex>_passwd` directly under `/up`, and downloading returns the bytes. -/
theorem c2_upload_roundtrip_witness :
    (upload_document envW tokX 1 "../../etc/passwd" (some "text/plain") [1, 2] "n" stW).1 =
      .ok () ∧
    findDocument
      (upload_document envW tokX 1 "../../etc/passwd" (some "text/plain") [1, 2] "n" stW).2 2 =
      some ⟨2, "70000000000000000000000000000000_passwd", "../../etc/passwd", "text/plain",
            "n", 50, 1⟩ ∧
    strictlyWithin "/up" "/up/70000000000000000000000000000000_passwd" ∧
    (download_document envW tokX 2
        (upload_document envW tokX 1 "../../etc/passwd" (some "text/plain") [1, 2] "n" stW).2).1 =
      .ok ⟨[1, 2], "text/plain", "../../etc/passwd"⟩ := by
  obtain ⟨h1, h2, -, h4, -, h6⟩ :=
    c2_upload_sanitized_roundtrip envW stW tokX userX 1 binder1 "../../etc/passwd" "n"
      (some "text/plain") [1, 2] (by decide) (by decide) (by decide) (by decide)
  exact ⟨h1, h2, h4, h6⟩

/-! ## Error frame lemmas: every failing endpoint leaves the store intact -/

theorem register_error_frame (env : Env) (email password : String) (s : St) (e : HTTPError)
    (h : (register env email password s).1 = .error e) :
    (register env email password s).2 = s := by
  unfold register at h ⊢
  cases hfind : s.users.find? (fun u => u.email == email) with
  | some u => simp [hfind]
  | none => simp [hfind] at h

theorem login_state (env : Env) (username password : String) (s : St) :
    (login env username password s).2 = s := by
  unfold login
  split
  · rfl
  · split <;> rfl

theorem list_binders_state (env : Env) (tok : TokenV) (s : St) :
    (list_binders env tok s).2 = s := by
  unfold list_binders
  split <;> rfl

theorem create_binder_error_frame (env : Env) (tok : TokenV) (name industry : String)
    (s : St) (e : HTTPError)
    (h : (create_binder env tok name industry s).1 = .error e) :
    (create_binder env tok name industry s).2 = s := by
  unfold create_binder at h ⊢
  cases hgcu : get_current_user env tok s with
  | error e2 => simp [hgcu]
  | ok me => simp [hgcu] at h

theorem list_tasks_state (env : Env) (tok : TokenV) (bid : Nat) (s : St) :
    (list_tasks env tok bid s).2 = s := by
  unfold list_tasks
  split
  · rfl
  · split <;> rfl

theorem create_task_error_frame (env : Env) (tok : TokenV) (bid : Nat)
    (title descr : String) (due : Option Nat) (s : St) (e : HTTPError)
    (h : (create_task env tok bid title descr due s).1 = .error e) :
    (create_task env tok bid title descr due s).2 = s := by
  unfold create_task at h ⊢
  cases hgcu : get_current_user env tok s with
  | error e2 => simp [hgcu]
  | ok me =>
    cases hg : get_binder_or_404 bid me s with
    | error e2 => simp [hgcu, hg]
    | ok b => simp [hgcu, hg] at h

theorem mark_done_error_frame (env : Env) (tok : TokenV) (tid : Nat) (s : St) (e : HTTPError)
    (h : (mark_done env tok tid s).1 = .error e) :
    (mark_done env tok tid s).2 = s := by
  unfold mark_done at h ⊢
  cases hgcu : get_current_user env tok s with
  | error e2 => simp [hgcu]
  | ok me =>
    cases ht : findTask s tid with
    | none => simp [hgcu, ht]
    | some t =>
      cases hbnd : findBinder s t.binder_id with
      | none => simp [hgcu, ht, hbnd]
      | some b =>
        by_cases hown : b.owner_id = me.id
        · simp [hgcu, ht, hbnd, hown] at h
        · simp [hgcu, ht, hbnd, hown]

theorem list_documents_state (env : Env) (tok : TokenV) (bid : Nat) (s : St) :
    (list_documents env tok bid s).2 = s := by
  unfold list_documents
  split
  · rfl
  · split <;> rfl

theorem upload_document_error_frame (env : Env) (tok : TokenV) (bid : Nat) (fn : String)
    (ct : Option String) (content : List Nat) (note : String) (s : St) (e : HTTPError)
    (h : (upload_document env tok bid fn ct content note s).1 = .error e) :
    (upload_document env tok bid fn ct content note s).2 = s := by
  unfold upload_document at h ⊢
  cases hgcu : get_current_user env tok s with
  | error e2 => simp [hgcu]
  | ok me =>
    cases hg : get_binder_or_404 bid me s with
    | error e2 => simp [hgcu, hg]
    | ok b => simp [hgcu, hg] at h

theorem download_document_state (env : Env) (tok : TokenV) (did : Nat) (s : St) :
    (download_document env tok did s).2 = s := by
  unfold download_document
  split
  · rfl
  · split
    · rfl
    · split
      · rfl
      · split
        · split <;> rfl
        · rfl

theorem binder_report_state (env : Env) (tok : TokenV) (bid : Nat) (s : St) :
    (binder_report env tok bid s).2 = s := by
  unfold binder_report
  split
  · rfl
  · split <;> rfl

/-- Any request that answers with an error leaves the store exactly as it
was: the handlers validate before they mutate. -/
theorem step_error_frame (env : Env) (r : Req) (s : St) (e : HTTPError)
    (h : (step env r s).1 = .error e) : (step env r s).2 = s := by
  cases r with
  | register email password =>
    simp only [step, wrap] at h ⊢
    cases hP : (register env email password s).1 with
    | ok a => rw [hP] at h; simp [Except.map] at h
    | error e2 => exact register_error_frame env email password s e2 hP
  | login username password => exact login_state env username password s
  | listBinders tok => exact list_binders_state env tok s
  | createBinder tok name industry =>
    simp only [step, wrap] at h ⊢
    cases hP : (create_binder env tok name industry s).1 with
    | ok a => rw [hP] at h; simp [Except.map] at h
    | error e2 => exact create_binder_error_frame env tok name industry s e2 hP
  | listTasks tok bid => exact list_tasks_state env tok bid s
  | createTask tok bid title descr due =>
    simp only [step, wrap] at h ⊢
    cases hP : (create_task env tok bid title descr due s).1 with
    | ok a => rw [hP] at h; simp [Except.map] at h
    | error e2 => exact create_task_error_frame env tok bid title descr due s e2 hP
  | markDone tok tid =>
    simp only [step, wrap] at h ⊢
    cases hP : (mark_done env tok tid s).1 with
    | ok a => rw [hP] at h; simp [Except.map] at h
    | error e2 => exact mark_done_error_frame env tok tid s e2 hP
  | listDocuments tok bid => exact list_documents_state env tok bid s
  | uploadDocument tok bid fn ct content note =>
    simp only [step, wrap] at h ⊢
    cases hP : (upload_document env tok bid fn ct content note s).1 with
    | ok a => rw [hP] at h; simp [Except.map] at h
    | error e2 => exact upload_document_error_frame env tok bid fn ct content note s e2 hP
  | downloadDocument tok did => exact download_document_state env tok did s
  | binderReport tok bid => exact binder_report_state env tok bid s

/-- C6: re-registering an email that is already taken fails with the
duplicate-email conflict error (HTTP 400 "Email already registered") and
returns the store unchanged — in particular the original identity, with its
original password hash, is still present — and, in general, every request
that produces an error response leaves the persisted state exactly as it
was. -/
theorem c6_conflict_and_error_purity (env : Env) (s : St) (email pw2 : String) (u : User)
    (hu : u ∈ s.users) (hemail : u.email = email) :
    register env email pw2 s = (.error ⟨400, "Email already registered"⟩, s) ∧
    u ∈ (register env email pw2 s).2.users ∧
    (∀ r : Req, ∀ e : HTTPError, (step env r s).1 = .error e → (step env r s).2 = s) := by
  have hreg : register env email pw2 s = (.error ⟨400, "Email already registered"⟩, s) := by
    unfold register
    cases hfind : s.users.find? (fun v => v.email == email) with
    | none =>
      rw [List.find?_eq_none] at hfind
      have := hfind u hu
      simp [hemail] at this
    | some v => rfl
  refine ⟨hreg, ?_, fun r e h => step_error_frame env r s e h⟩
  rw [hreg]
  exact hu

/-- Witness for `c6_conflict_and_error_purity`: re-registering X's email
conflicts and leaves the store (with X's original hash) unchanged; a
failing cross-tenant mark-done also leaves the store unchanged. -/
theorem c6_conflict_witness :
    register envW "x@x.com" "pw2" stW = (.error ⟨400, "Email already registered"⟩, stW) ∧
    userX ∈ (register envW "x@x.com" "pw2" stW).2.users ∧
    (step envW (.markDone tokY 1) stW).2 = stW := by
  obtain ⟨h1, h2, h3⟩ :=
    c6_conflict_and_error_purity envW stW "x@x.com" "pw2" userX (by decide) (by decide)
  exact ⟨h1, h2, h3 (.markDone tokY 1) ⟨404, "Task not found"⟩ (by decide)⟩

/-- A well-formed, validly signed, unexpired token whose subject matches no
stored identity resolves to 401 "User not found". -/
theorem get_current_user_unknown_subject (env : Env) (s : St) (email : String) (e : Nat)
    (hne : email ≠ "") (hnouser : ∀ u ∈ s.users, u.email ≠ email) (hexp : env.now ≤ e) :
    get_current_user env (jwt_encode ⟨some email, e⟩ env.secret) s =
      .error ⟨401, "User not found"⟩ := by
  have hfind : s.users.find? (fun u => u.email == email) = none := by
    rw [List.find?_eq_none]
    intro u hu
    simp [hnouser u hu]
  unfold get_current_user jwt_decode jwt_encode
  simp [Nat.not_lt.mpr hexp, hne, hfind]

/-- C10: a request carrying a well-formed, validly signed, unexpired token
whose subject email matches no stored identity fails with the 401
authentication error "User not found" — not a 404 — and the store is left
untouched: the resource operation never runs. -/
theorem c10_unknown_subject_unauthenticated (env : Env) (s : St) (email : String)
    (e : Nat) (r : Req)
    (hne : email ≠ "")
    (hnouser : ∀ u ∈ s.users, u.email ≠ email)
    (hexp : env.now ≤ e)
    (htok : r.tokOf = some (jwt_encode ⟨some email, e⟩ env.secret)) :
    (step env r s).1 = .error ⟨401, "User not found"⟩ ∧ (step env r s).2 = s := by
  have hgcu := get_current_user_unknown_subject env s email e hne hnouser hexp
  cases r with
  | register a b => simp [Req.tokOf] at htok
  | login a b => simp [Req.tokOf] at htok
  | listBinders tok =>
    simp only [Req.tokOf, Option.some.injEq] at htok
    subst htok
    constructor <;> simp [step, wrap, list_binders, hgcu, Except.map]
  | createBinder tok name industry =>
    simp only [Req.tokOf, Option.some.injEq] at htok
    subst htok
    constructor <;> simp [step, wrap, create_binder, hgcu, Except.map]
  | listTasks tok bid =>
    simp only [Req.tokOf, Option.some.injEq] at htok
    subst htok
    constructor <;> simp [step, wrap, list_tasks, hgcu, Except.map]
  | createTask tok bid title descr due =>
    simp only [Req.tokOf, Option.some.injEq] at htok
    subst htok
    constructor <;> simp [step, wrap, create_task, hgcu, Except.map]
  | markDone tok tid =>
    simp only [Req.tokOf, Option.some.injEq] at htok
    subst htok
    constructor <;> simp [step, wrap, mark_done, hgcu, Except.map]
  | listDocuments tok bid =>
    simp only [Req.tokOf, Option.some.injEq] at htok
    subst htok
    constructor <;> simp [step, wrap, list_documents, hgcu, Except.map]
  | uploadDocument tok bid fn ct content note =>
    simp only [Req.tokOf, Option.some.injEq] at htok
    subst htok
    constructor <;> simp [step, wrap, upload_document, hgcu, Except.map]
  | downloadDocument tok did =>
    simp only [Req.tokOf, Option.some.injEq] at htok
    subst htok
    constructor <;> simp [step, wrap, download_document, hgcu, Except.map]
  | binderReport tok bid =>
    simp only [Req.tokOf, Option.some.injEq] at htok
    subst htok
    constructor <;> simp [step, wrap, binder_report, hgcu, Except.map]

/-- Witness for `c10_unknown_subject_unauthenticated`: a valid token for
the unknown subject `ghost@x.com` gets 401 "User not found" from the
binder-listing endpoint and the store is unchanged. -/
theorem c10_unknown_subject_witness :
    (step envW (.listBinders (jwt_encode ⟨some "ghost@x.com", 100⟩ "k")) stW).1 =
      .error ⟨401, "User not found"⟩ ∧
    (step envW (.listBinders (jwt_encode ⟨some "ghost@x.com", 100⟩ "k")) stW).2 = stW :=
  c10_unknown_subject_unauthenticated envW stW "ghost@x.com" 100
    (.listBinders (jwt_encode ⟨some "ghost@x.com", 100⟩ "k"))
    (by decide) (by decide) (by decide) rfl

/-! ## Report projection (C7) -/

/-- C7: whenever the report endpoint answers, it answers purely — the store
is returned unchanged — and its payload is exactly the described projection:
the open section is a permutation of the binder's not-done tasks and the
completed section of its done tasks, both sections are sorted ascending by
due date with a missing due date keyed as `date.max`, the documents section
is a permutation of the binder's documents sorted by upload time descending,
and (whenever every real due date precedes `date.max`) no task lacking a
due date is ever followed by one that has one, i.e. undated tasks sit last. -/
theorem c7_report_projection (env : Env) (tok : TokenV) (bid : Nat) (s : St)
    (r : Report) (s2 : St)
    (heq : binder_report env tok bid s = (.ok r, s2)) :
    s2 = s ∧
    r.open_tasks.Perm ((tasksOf s bid).filter (fun t => decide (t.status ≠ "done"))) ∧
    r.done_tasks.Perm ((tasksOf s bid).filter (fun t => t.status == "done")) ∧
    List.Sorted dueLe r.open_tasks ∧
    List.Sorted dueLe r.done_tasks ∧
    r.docs.Perm (docsOf s bid) ∧
    List.Sorted uploadedGe r.docs ∧
    ((∀ t ∈ tasksOf s bid, ∀ d, t.due_date = some d → d < dateMax) →
      r.open_tasks.Pairwise (fun a b => a.due_date = none → b.due_date = none) ∧
      r.done_tasks.Pairwise (fun a b => a.due_date = none → b.due_date = none)) := by
  unfold binder_report at heq
  cases hgcu : get_current_user env tok s with
  | error e => simp [hgcu] at heq
  | ok me =>
    simp only [hgcu] at heq
    cases hg : get_binder_or_404 bid me s with
    | error e => simp [hg] at heq
    | ok binder =>
      simp only [hg, Prod.mk.injEq, Except.ok.injEq] at heq
      obtain ⟨hr, hs⟩ := heq
      subst hs
      subst hr
      refine ⟨rfl, List.perm_insertionSort _ _, List.perm_insertionSort _ _,
              List.sorted_insertionSort _ _, List.sorted_insertionSort _ _,
              List.perm_insertionSort _ _, List.sorted_insertionSort _ _, ?_⟩
      intro hbound
      constructor <;>
      · refine List.Pairwise.imp_of_mem ?_ (List.sorted_insertionSort _ _)
        intro a b ha hb hle hnone
        cases hbd : b.due_date with
        | none => rfl
        | some d =>
          exfalso
          have hbmem : b ∈ tasksOf s bid := by
            have hmem := (List.perm_insertionSort dueLe _).mem_iff.mp hb
            exact (List.mem_filter.mp hmem).1
          have hd : d < dateMax := hbound b hbmem d hbd
          have hkey : dueKey a ≤ dueKey b := hle
          simp [dueKey, hnone, hbd] at hkey
          omega

/-- Witness for `c7_report_projection`: X's report over binder 1 returns
open tasks `[task1, task2]` (due 40 before undated), done `[task3]`,
documents `[doc1]`, and the projection properties hold of them. -/
theorem c7_report_projection_witness :
    List.Perm [task1, task2] ((tasksOf stW 1).filter (fun t => decide (t.status ≠ "done"))) ∧
    List.Sorted dueLe [task1, task2] ∧
    List.Perm [doc1] (docsOf stW 1) ∧
    List.Sorted uploadedGe [doc1] := by
  obtain ⟨-, h2, -, h4, -, h6, h7, -⟩ :=
    c7_report_projection envW tokX 1 stW
      ⟨"Safety", "general", [task1, task2], [task3], [doc1]⟩ stW (by decide)
  exact ⟨h2, h4, h6, h7⟩

/-! ## Mark-done algebra (C8) -/

theorem setDone_id (tid : Nat) (t : Task) : (setDone tid t).id = t.id := by
  unfold setDone
  split <;> rfl

theorem setDone_binder_id (tid : Nat) (t : Task) :
    (setDone tid t).binder_id = t.binder_id := by
  unfold setDone
  split <;> rfl

theorem setDone_setDone (tid : Nat) (t : Task) :
    setDone tid (setDone tid t) = setDone tid t := by
  unfold setDone
  by_cases h : t.id = tid <;> simp [h]

theorem find?_id_map_setDone (tid : Nat) (l : List Task) :
    (l.map (setDone tid)).find? (fun t => t.id == tid) =
      (l.find? (fun t => t.id == tid)).map (setDone tid) := by
  rw [List.find?_map]
  have hsame : ((fun t : Task => t.id == tid) ∘ setDone tid) =
      (fun t : Task => t.id == tid) := by
    funext t
    simp [Function.comp, setDone_id]
  rw [hsame]

theorem register_tasks (env : Env) (email password : String) (s : St) :
    (register env email password s).2.tasks = s.tasks := by
  unfold register
  split <;> rfl

theorem create_binder_tasks (env : Env) (tok : TokenV) (name industry : String) (s : St) :
    (create_binder env tok name industry s).2.tasks = s.tasks := by
  unfold create_binder
  split <;> rfl

theorem upload_document_tasks (env : Env) (tok : TokenV) (bid : Nat) (fn : String)
    (ct : Option String) (content : List Nat) (note : String) (s : St) :
    (upload_document env tok bid fn ct content note s).2.tasks = s.tasks := by
  unfold upload_document
  split
  · rfl
  · split <;> rfl

/-- C8: marking a task done is idempotent and `"done"` is terminal.  First,
a successful mark-done leaves the task persisted with status `"done"`.
Second, running mark-done again changes nothing further (this holds whether
the first call succeeded or failed).  Third, under the autoincrement
discipline, once every stored row with the task's id is done, no request
whatsoever — including further mutations — ever yields a stored row with
that id whose status is not `"done"`. -/
theorem c8_done_is_terminal (env : Env) (tok : TokenV) (tid : Nat) (s : St) :
    ((mark_done env tok tid s).1 = .ok () →
      ∃ t2, findTask (mark_done env tok tid s).2 tid = some t2 ∧ t2.status = "done") ∧
    (mark_done env tok tid ((mark_done env tok tid s).2)).2 = (mark_done env tok tid s).2 ∧
    (∀ r : Req, Wf s →
      (∀ t ∈ s.tasks, t.id = tid → t.status = "done") →
      (∃ t ∈ s.tasks, t.id = tid) →
      ∀ t2 ∈ (step env r s).2.tasks, t2.id = tid → t2.status = "done") := by
  refine ⟨?_, ?_, ?_⟩
  · -- a successful mark-done persists status "done" on the task
    intro hok
    cases hgcu : get_current_user env tok s with
    | error e => simp [mark_done, hgcu] at hok
    | ok me =>
      cases ht : findTask s tid with
      | none => simp [mark_done, hgcu, ht] at hok
      | some t =>
        cases hb : findBinder s t.binder_id with
        | none => simp [mark_done, hgcu, ht, hb] at hok
        | some b =>
          by_cases hown : b.owner_id = me.id
          · have htid : t.id = tid := by simpa using List.find?_some ht
            refine ⟨setDone tid t, ?_, by simp [setDone, htid]⟩
            have hstate : (mark_done env tok tid s).2 =
                { s with tasks := s.tasks.map (setDone tid) } := by
              simp [mark_done, hgcu, ht, hb, hown]
            rw [hstate]
            unfold findTask
            rw [show ({ s with tasks := s.tasks.map (setDone tid) } : St).tasks =
                  s.tasks.map (setDone tid) from rfl,
                find?_id_map_setDone]
            have ht' : s.tasks.find? (fun x => x.id == tid) = some t := ht
            rw [ht']
            rfl
          · simp [mark_done, hgcu, ht, hb, hown] at hok
  · -- idempotence on the persisted state
    cases hgcu : get_current_user env tok s with
    | error e => simp [mark_done, hgcu]
    | ok me =>
      cases ht : findTask s tid with
      | none => simp [mark_done, hgcu, ht]
      | some t =>
        cases hb : findBinder s t.binder_id with
        | none => simp [mark_done, hgcu, ht, hb]
        | some b =>
          by_cases hown : b.owner_id = me.id
          · have h1 : mark_done env tok tid s =
                (.ok (), { s with tasks := s.tasks.map (setDone tid) }) := by
              simp [mark_done, hgcu, ht, hb, hown]
            rw [h1]
            have hgcu2 : get_current_user env tok
                { s with tasks := s.tasks.map (setDone tid) } = .ok me :=
              (get_current_user_users_congr _ _ _ s rfl).trans hgcu
            have ht2 : findTask { s with tasks := s.tasks.map (setDone tid) } tid =
                some (setDone tid t) := by
              unfold findTask
              rw [show ({ s with tasks := s.tasks.map (setDone tid) } : St).tasks =
                    s.tasks.map (setDone tid) from rfl,
                  find?_id_map_setDone]
              have ht' : s.tasks.find? (fun x => x.id == tid) = some t := ht
              rw [ht']
              rfl
            have hb2 : findBinder { s with tasks := s.tasks.map (setDone tid) }
                (setDone tid t).binder_id = some b := by
              rw [setDone_binder_id]
              exact hb
            simp only [mark_done, hgcu2, ht2, hb2, hown, if_pos]
            rw [List.map_map]
            congr 2
            funext t'
            exact setDone_setDone tid t'
          · simp [mark_done, hgcu, ht, hb, hown]
  · -- terminality across every request
    intro r hwf hdone hex
    obtain ⟨t0, ht0mem, ht0id⟩ := hex
    cases r with
    | register email password =>
      intro t2 ht2 htid
      rw [show (step env (.register email password) s).2 =
            (register env email password s).2 from rfl,
          register_tasks] at ht2
      exact hdone t2 ht2 htid
    | login username password =>
      intro t2 ht2 htid
      rw [show (step env (.login username password) s).2 =
            (login env username password s).2 from rfl,
          login_state] at ht2
      exact hdone t2 ht2 htid
    | listBinders tok2 =>
      intro t2 ht2 htid
      rw [show (step env (.listBinders tok2) s).2 = (list_binders env tok2 s).2 from rfl,
          list_binders_state] at ht2
      exact hdone t2 ht2 htid
    | createBinder tok2 name industry =>
      intro t2 ht2 htid
      rw [show (step env (.createBinder tok2 name industry) s).2 =
            (create_binder env tok2 name industry s).2 from rfl,
          create_binder_tasks] at ht2
      exact hdone t2 ht2 htid
    | listTasks tok2 bid =>
      intro t2 ht2 htid
      rw [show (step env (.listTasks tok2 bid) s).2 = (list_tasks env tok2 bid s).2 from rfl,
          list_tasks_state] at ht2
      exact hdone t2 ht2 htid
    | createTask tok2 bid title descr due =>
      intro t2 ht2 htid
      rw [show (step env (.createTask tok2 bid title descr due) s).2 =
            (create_task env tok2 bid title descr due s).2 from rfl] at ht2
      unfold create_task at ht2
      cases hgcu : get_current_user env tok2 s with
      | error e => simp only [hgcu] at ht2; exact hdone t2 ht2 htid
      | ok me =>
        simp only [hgcu] at ht2
        cases hg : get_binder_or_404 bid me s with
        | error e => simp only [hg] at ht2; exact hdone t2 ht2 htid
        | ok b =>
          simp only [hg, List.mem_append, List.mem_singleton] at ht2
          rcases ht2 with h | h
          · exact hdone t2 h htid
          · exfalso
            have hlt : t0.id < s.next_task_id := hwf.2.2.1 t0 ht0mem
            rw [h] at htid
            simp at htid
            omega
    | markDone tok2 tid2 =>
      intro t2 ht2 htid
      rw [show (step env (.markDone tok2 tid2) s).2 = (mark_done env tok2 tid2 s).2
            from rfl] at ht2
      unfold mark_done at ht2
      cases hgcu : get_current_user env tok2 s with
      | error e => simp only [hgcu] at ht2; exact hdone t2 ht2 htid
      | ok me =>
        simp only [hgcu] at ht2
        cases ht : findTask s tid2 with
        | none => simp only [ht] at ht2; exact hdone t2 ht2 htid
        | some t =>
          simp only [ht] at ht2
          cases hb : findBinder s t.binder_id with
          | none => simp only [hb] at ht2; exact hdone t2 ht2 htid
          | some b =>
            simp only [hb] at ht2
            by_cases hown : b.owner_id = me.id
            · rw [if_pos hown] at ht2
              simp only [List.mem_map] at ht2
              obtain ⟨a, ha, hat⟩ := ht2
              have haid : a.id = tid := by
                rw [← hat] at htid
                rw [setDone_id] at htid
                exact htid
              have hastatus : a.status = "done" := hdone a ha haid
              rw [← hat]
              unfold setDone
              split
              · rfl
              · exact hastatus
            · rw [if_neg hown] at ht2
              exact hdone t2 ht2 htid
    | listDocuments tok2 bid =>
      intro t2 ht2 htid
      rw [show (step env (.listDocuments tok2 bid) s).2 =
            (list_documents env tok2 bid s).2 from rfl,
          list_documents_state] at ht2
      exact hdone t2 ht2 htid
    | uploadDocument tok2 bid fn ct content note =>
      intro t2 ht2 htid
      rw [show (step env (.uploadDocument tok2 bid fn ct content note) s).2 =
            (upload_document env tok2 bid fn ct content note s).2 from rfl,
          upload_document_tasks] at ht2
      exact hdone t2 ht2 htid
    | downloadDocument tok2 did =>
      intro t2 ht2 htid
      rw [show (step env (.downloadDocument tok2 did) s).2 =
            (download_document env tok2 did s).2 from rfl,
          download_document_state] at ht2
      exact hdone t2 ht2 htid
    | binderReport tok2 bid =>
      intro t2 ht2 htid
      rw [show (step env (.binderReport tok2 bid) s).2 =
            (binder_report env tok2 bid s).2 from rfl,
          binder_report_state] at ht2
      exact hdone t2 ht2 htid

/-- Witness for `c8_done_is_terminal`: marking X's task 1 done persists
status "done"; a second mark-done is a no-op; and after creating a fresh
task in the binder, every stored row with task 3's id is still done. -/
theorem c8_done_is_terminal_witness :
    (∃ t2, findTask (mark_done envW tokX 1 stW).2 1 = some t2 ∧ t2.status = "done") ∧
    (mark_done envW tokX 1 ((mark_done envW tokX 1 stW).2)).2 =
      (mark_done envW tokX 1 stW).2 ∧
    (∀ t2 ∈ (step envW (.createTask tokX 1 "n" "" none) stW).2.tasks,
      t2.id = 3 → t2.status = "done") := by
  refine ⟨(c8_done_is_terminal envW tokX 1 stW).1 (by decide),
          (c8_done_is_terminal envW tokX 1 stW).2.1,
          (c8_done_is_terminal envW tokX 3 stW).2.2 (.createTask tokX 1 "n" "" none)
            (by decide) (by decide) ⟨task3, by decide, by decide⟩⟩

end CB
